import Mathlib

/-!
Shallow embedding of the staged-upload / promotion / range-read subsystem of
the poly-tag backend, together with theorems settling the specification
claims against it.

The embedding follows the source files:
* `src/services/file_driver/local_file_system.rs` (driver `write_staging`,
  `read`, `commit_staging`, `remove_staging`, `remove`, `read_staging`);
* `src/services/staging_file_service.rs` (`create_staging_file`,
  `fill_staging_file_by_id`, `remove_staging_file_by_id`,
  `remove_expired_staging_files`);
* `src/services/file_service.rs` (`create_file_from_staging_file_id`) and
  `src/services/file_service/compute_file_mime.rs`;
* `src/guards.rs` (`RangeHeader` validation) and
  `src/routes/file/controllers.rs` / `src/routes/file/dto.rs`
  (`get_file_data`, `FileData::respond_to`).

Machine integers are modelled as `Nat`/`Int` with explicit `% 2^w` where
the source performs wrapping casts. File contents are `List Nat` (byte
sequences); filesystem and database state is passed explicitly.
-/

namespace PolyTag

instance {ε : Type u} {α : Type v} [DecidableEq ε] [DecidableEq α] :
    DecidableEq (Except ε α) := fun x y =>
  match x, y with
  | .ok a, .ok b =>
    if h : a = b then isTrue (by rw [h]) else isFalse (by simp [h])
  | .ok _, .error _ => isFalse (by simp)
  | .error _, .ok _ => isFalse (by simp)
  | .error a, .error b =>
    if h : a = b then isTrue (by rw [h]) else isFalse (by simp [h])

/-- `i64::MAX` as a natural number. -/
def i64MaxU : Nat := 2 ^ 63 - 1

/-- `u64` subtraction `a - b` (wrapping, modulo `2^64`), for `a b < 2^64`. -/
def u64Sub (a b : Nat) : Nat := (a + 2 ^ 64 - b) % 2 ^ 64

/-- `u64` addition (wrapping, modulo `2^64`). -/
def u64Add (a b : Nat) : Nat := (a + b) % 2 ^ 64

/-- The byte-range of a read request (`ReadRange` in the source; the
`Suffix` payload is a `u32` there, the others `u64`). -/
inductive ReadRange where
  | full : ReadRange
  | start (s : Nat) : ReadRange
  | range (s e : Nat) : ReadRange
  | suffix (n : Nat) : ReadRange
deriving DecidableEq

/-- Errors of the driver `read` operation (`ReadError` in the source).
`ioRead` stands for `ReadError::Read { io_error }`; the pure model never
produces it. -/
inductive ReadError where
  | rangeStartExceedsFileSize (start fileSize : Nat) : ReadError
  | rangeEndExceedsFileSize (e fileSize : Nat) : ReadError
  | ioRead : ReadError
deriving DecidableEq

/-- Errors of the driver `write_staging` operation (`WriteError` in the
source). `write n` is `WriteError::Write { io_error, file_size = n }`: an
I/O failure mid-copy, carrying the re-stat'd object length. -/
inductive WriteError where
  | offsetExceedsFileSize (offset fileSize : Nat) : WriteError
  | write (fileSize : Nat) : WriteError
  | fileTooLarge (maxSize fileSize : Nat) : WriteError
  | offsetTooLarge (maxOffset offset : Nat) : WriteError
deriving DecidableEq

/-- The number of bytes `read` hands to `take` for an inclusive range:
`end - start + 1` computed in `u64` arithmetic. -/
def rangeTakeCount (s e : Nat) : Nat := u64Add (u64Sub e s) 1

namespace LocalFileSystem

/-- Driver `read` on a resident object (`LocalFileSystem::read`).
`obj = none` models a missing file (`ErrorKind::NotFound` → `Ok(None)`).
The returned list is the byte sequence the bounded reader streams. -/
def read (obj : Option (List Nat)) (readRange : ReadRange) :
    Except ReadError (Option (List Nat)) :=
  match obj with
  | none => .ok none
  | some content =>
    let fileSize := content.length
    match readRange with
    | .full => .ok (some content)
    | .start s =>
      if fileSize ≤ s then
        .error (.rangeStartExceedsFileSize s fileSize)
      else
        .ok (some (content.drop s))
    | .range s e =>
      if fileSize ≤ e then
        .error (.rangeEndExceedsFileSize e fileSize)
      else
        .ok (some ((content.drop s).take (rangeTakeCount s e)))
    | .suffix n =>
      -- a suffix larger than the file degrades to the whole file
      let n := min n fileSize
      .ok (some (content.drop (fileSize - n)))

/-- Byte content after seeking to `offset` and copying `written` over an
object holding `content` (bytes past `offset + written.length` survive). -/
def overwriteAt (content : List Nat) (offset : Nat) (written : List Nat) :
    List Nat :=
  content.take offset ++ written ++ content.drop (offset + written.length)

/-- Driver `write_staging` (`LocalFileSystem::write_staging`). The object
is opened with `create(true), truncate(false)`, so a missing object becomes
an empty one before validation. Two I/O faults are injected:
`copyFail = some k` makes `tokio::io::copy` fail after `k` bytes of `data`
have been written (`copyFail = none` is a fully successful copy), and
`restatFails` makes the post-write `metadata()` call fail, upon which the
source falls back to `initial_file_size` ("assume the write operation has
been failed entirely, since we can't get the file size") — so the reported
size is then the stale pre-write length, both in the `Ok` of a successful
copy and inside `WriteError::Write` of a failed one. The flush error is
ignored by the source and does not affect the bytes. The earlier open and
initial-stat failures (which return `Write` with size 0 before anything is
written) are not injected. Returns the object state after the call and
the driver result (the success value is returned as `i64` by the
source). -/
def write_staging (obj : Option (List Nat)) (offset : Nat) (data : List Nat)
    (copyFail : Option Nat) (restatFails : Bool) :
    Option (List Nat) × Except WriteError Nat :=
  let content := obj.getD []
  let initialFileSize := content.length
  if i64MaxU < initialFileSize then
    (some content, .error (.fileTooLarge i64MaxU initialFileSize))
  else if initialFileSize < offset then
    (some content, .error (.offsetExceedsFileSize offset initialFileSize))
  else if i64MaxU < offset + initialFileSize then
    (some content, .error (.offsetTooLarge i64MaxU offset))
  else
    -- seek to `offset`, then copy (possibly failing partway), then flush
    let written := match copyFail with | none => data | some k => data.take k
    let newContent := overwriteAt content offset written
    -- re-stat the object; on failure fall back to the pre-write length
    let fileSize :=
      match restatFails with
      | true => initialFileSize
      | false => newContent.length
    match copyFail with
    | none => (some newContent, .ok fileSize)
    | some _ => (some newContent, .error (.write fileSize))

/-- Driver `commit_staging` (`LocalFileSystem::commit_staging`) acting on
the staging/resident object maps. When `shouldCopy` is set the source
copies then best-effort deletes the staging copy (`deleteFails` injects a
failure of that delete, which is logged and swallowed); otherwise it
renames. A missing staging object makes the copy/rename fail with an I/O
error, modelled as `none`. -/
def commit_staging (shouldCopy deleteFails : Bool)
    (staging resident : List (Nat × List Nat)) (id : Nat) :
    Option (List (Nat × List Nat) × List (Nat × List Nat)) :=
  match (staging.find? (fun p => p.1 = id)).map (fun p => p.2) with
  | none => none
  | some bytes =>
    let resident' := (id, bytes) :: resident.filter (fun p => p.1 ≠ id)
    if shouldCopy && deleteFails then
      some (staging, resident')
    else
      some (staging.filter (fun p => p.1 ≠ id), resident')

end LocalFileSystem

/-- A row of the `staging_files` table (`db/models.rs` `StagingFile`).
Uuid is abstracted as `Nat`; `staged_at` is an abstract timestamp. -/
structure StagingFile where
  id : Nat
  name : String
  mime : Option String
  size : Int
  stagedAt : Int
deriving DecidableEq

/-- A row of the `files` table (`db/models.rs` `File`, sans `uploaded_at`,
which no claim touches). -/
structure File where
  id : Nat
  name : String
  mime : String
  size : Int
  hash : Int
deriving DecidableEq

/-- The database and filesystem state the staged-upload subsystem acts on:
staging rows, resident file rows, and the per-id byte objects of the two
driver namespaces (association lists keyed by id). -/
structure SystemState where
  stagingRows : List StagingFile
  files : List File
  stagingObjs : List (Nat × List Nat)
  residentObjs : List (Nat × List Nat)
deriving DecidableEq

/-- Look up the byte object stored for `id` in a driver namespace. -/
def lookupObj (objs : List (Nat × List Nat)) (id : Nat) : Option (List Nat) :=
  (objs.find? (fun p => p.1 = id)).map (fun p => p.2)

/-- Store `bytes` as the object for `id` (create or overwrite). -/
def insertObj (objs : List (Nat × List Nat)) (id : Nat) (bytes : List Nat) :
    List (Nat × List Nat) :=
  (id, bytes) :: objs.filter (fun p => p.1 ≠ id)

/-- Delete the object for `id` (driver `remove_staging` / `remove`). -/
def removeObj (objs : List (Nat × List Nat)) (id : Nat) :
    List (Nat × List Nat) :=
  objs.filter (fun p => p.1 ≠ id)

/-- `SELECT ... WHERE id = ?` on the staging rows. -/
def findRow (rows : List StagingFile) (id : Nat) : Option StagingFile :=
  rows.find? (fun r => r.id = id)

/-- `DELETE ... WHERE id = ?` on the staging rows. -/
def deleteRow (rows : List StagingFile) (id : Nat) : List StagingFile :=
  rows.filter (fun r => r.id ≠ id)

/-- `UPDATE staging_files SET size = ? WHERE id = ?`. -/
def updateRowSize (rows : List StagingFile) (id : Nat) (size : Int) :
    List StagingFile :=
  rows.map (fun r => if r.id = id then { r with size := size } else r)

/-- `SELECT ... WHERE id = ?` on the resident file rows. -/
def findFile (files : List File) (id : Nat) : Option File :=
  files.find? (fun f => f.id = id)

namespace StagingFileService

/-- `StagingFileService::create_staging_file`: inserts a row with size 0.
The database generates the fresh id and the `staged_at` timestamp; both are
parameters here. -/
def create_staging_file (st : SystemState) (id : Nat) (name : String)
    (mime : Option String) (now : Int) : SystemState × StagingFile :=
  let row : StagingFile :=
    { id := id, name := name, mime := mime, size := 0, stagedAt := now }
  ({ st with stagingRows := st.stagingRows ++ [row] }, row)

/-- `StagingFileService::remove_staging_file_by_id`: deletes the row,
returning it, and when `deleteData` is set also instructs the driver to
remove the staging bytes (result ignored). -/
def remove_staging_file_by_id (st : SystemState) (id : Nat)
    (deleteData : Bool) : SystemState × Option StagingFile :=
  match findRow st.stagingRows id with
  | none => (st, none)
  | some sf =>
    let st1 := { st with stagingRows := deleteRow st.stagingRows id }
    let st2 :=
      if deleteData then
        { st1 with stagingObjs := removeObj st1.stagingObjs id }
      else st1
    (st2, some sf)

/-- `StagingFileService::fill_staging_file_by_id`: inside one transaction,
row-locks the staging row (absent row → `Ok(None)`), delegates to the
driver's `write_staging`, and only on driver success updates the row's
size column to the returned size. A driver error is returned as
`Ok(Err(e))`, which still commits the (unchanged) metadata transaction,
while the driver's filesystem effects persist. -/
def fill_staging_file_by_id (st : SystemState) (id : Nat)
    (offset : Option Nat) (data : List Nat) (copyFail : Option Nat)
    (restatFails : Bool) :
    SystemState × Except WriteError (Option StagingFile) :=
  match findRow st.stagingRows id with
  | none => (st, .ok none)
  | some _ =>
    let res :=
      LocalFileSystem.write_staging (lookupObj st.stagingObjs id)
        (offset.getD 0) data copyFail restatFails
    let st1 := { st with stagingObjs := insertObj st.stagingObjs id (res.1.getD []) }
    match res.2 with
    | .error e => (st1, .error e)
    | .ok size =>
      let rows := updateRowSize st1.stagingRows id (size : Int)
      ({ st1 with stagingRows := rows }, .ok (findRow rows id))

/-- The ordering of the expiry-sweep `SELECT`: `staged_at` ascending, then
id ascending (oldest first). -/
def rowOldestFirst (a b : StagingFile) : Prop :=
  a.stagedAt < b.stagedAt ∨ (a.stagedAt = b.stagedAt ∧ a.id ≤ b.id)

instance : DecidableRel rowOldestFirst := fun a b => by
  unfold rowOldestFirst; infer_instance

/-- `StagingFileService::remove_expired_staging_files`: selects the ids of
rows with `staged_at < now - duration`, oldest first, up to `limit`;
deletes the rows with those ids in one statement; spawns a detached
removal task for each deleted id (the byte objects are NOT touched by the
sweep itself); returns the new state, the count of deleted rows, and the
ids queued for background byte removal. -/
def remove_expired_staging_files (st : SystemState) (now duration : Int)
    (limit : Nat) : SystemState × Nat × List Nat :=
  let expirationTime := now - duration
  let expired := st.stagingRows.filter (fun r => r.stagedAt < expirationTime)
  let expiredIds :=
    ((expired.insertionSort rowOldestFirst).take limit).map (fun r => r.id)
  let deletedIds :=
    (st.stagingRows.filter (fun r => expiredIds.contains r.id)).map
      (fun r => r.id)
  ({ st with
      stagingRows := st.stagingRows.filter
        (fun r => !(expiredIds.contains r.id)) },
    deletedIds.length, deletedIds)

end StagingFileService

/-- The external MIME helpers used by `compute_file_mime.rs`: `infer`
(content sniffing, a function of the file's bytes) and `mime_guess`
(extension-based guessing, a function of the file's path). Both are
third-party crates, abstracted as parameters. -/
structure MimeEnv where
  infer : List Nat → Option String
  guessFromPath : String → Option String

/-- Modelled from the spec: `compute_file_hash.rs` is referenced by
`file_service.rs` but is not under `src/`; the spec says promotion must
"Compute a content hash over the bytes", so the hash is an abstract
function of the staged bytes (the `as i64` cast in `file_service.rs` is
folded into its codomain). -/
structure HashFn where
  hash : List Nat → Int

/-- `LocalFileSystem::generate_staging_file_path`: the staging directory
joined with the id's canonical textual form. -/
def generate_staging_file_path (stagingDir : String) (id : Nat) : String :=
  stagingDir ++ "/" ++ toString id

/-- `compute_file_mime` (file-path branch of `compute_file_mime.rs`):
content-sniff via `infer::get_from_path`; on no match fall back to
`mime_guess::from_path(..).first_raw()`, and finally to
`"application/octet-stream"`. -/
def compute_file_mime (env : MimeEnv) (path : String) (bytes : List Nat) :
    String :=
  match env.infer bytes with
  | some m => m
  | none => (env.guessFromPath path).getD "application/octet-stream"

/-- The `FileServiceError` variants promotion can surface in this model
(`io` stands for any `std::io::Error`-derived variant). -/
inductive FileServiceError where
  | fileNotYetFilled : FileServiceError
  | io : FileServiceError
deriving DecidableEq

namespace FileService

/-- `FileService::create_file_from_staging_file_id` (promotion), executed
in one database transaction (an error rolls back all database changes;
driver effects are outside transactional control): consume the staging row
with `delete_data = false` (absent → `Ok(None)`); `read_staging` the bytes
(absent → `FileNotYetFilled`, rollback); resolve MIME (declared, else
`compute_file_mime`); compute size (re-stat) and hash; insert the `File`
row reusing the staging id; `commit_staging` the bytes. Search indexing is
best-effort and has no observable effect here. -/
def create_file_from_staging_file_id (env : MimeEnv) (hashFn : HashFn)
    (stagingDir : String) (shouldCopy deleteFails : Bool)
    (st : SystemState) (id : Nat) :
    SystemState × Except FileServiceError (Option File) :=
  match StagingFileService.remove_staging_file_by_id st id false with
  | (_, none) => (st, .ok none)
  | (st1, some sf) =>
    match lookupObj st1.stagingObjs id with
    | none => (st, .error .fileNotYetFilled)
    | some bytes =>
      let mime :=
        match sf.mime with
        | some m => m
        | none =>
          compute_file_mime env (generate_staging_file_path stagingDir id)
            bytes
      let f : File :=
        { id := sf.id, name := sf.name, mime := mime,
          size := (bytes.length : Int), hash := hashFn.hash bytes }
      let st2 := { st1 with files := st1.files ++ [f] }
      match
        LocalFileSystem.commit_staging shouldCopy deleteFails
          st2.stagingObjs st2.residentObjs id
      with
      | none => (st, .error .io)
      | some (so, ro) =>
        ({ st2 with stagingObjs := so, residentObjs := ro }, .ok (some f))

end FileService

/-- The rejection reasons of the `RangeHeader` guard's validation stage
(`guards.rs`, after both bounds parsed as `i64`). -/
inductive RangeValidationError where
  | negativeStart : RangeValidationError
  | negativeEnd : RangeValidationError
  | endBeforeStart : RangeValidationError
deriving DecidableEq

/-- The validation stage of `RangeHeader::from_request` (`guards.rs`
lines 168–212), after the textual bounds have been parsed: with an
explicit end, `start` and `end` must be non-negative and `start ≤ end`;
with a trailing dash (`start-`), `start` must be non-negative; a bare
(possibly negative) `start` passes through. -/
def validateRangeHeader (start : Int) (endv : Option Int)
    (trailingDash : Bool) :
    Except RangeValidationError (Int × Option Int) :=
  match endv with
  | some e =>
    if start < 0 then .error .negativeStart
    else if e < 0 then .error .negativeEnd
    else if e < start then .error .endBeforeStart
    else .ok (start, some e)
  | none =>
    if trailingDash then
      if start < 0 then .error .negativeStart else .ok (start, none)
    else .ok (start, none)

/-- The `read_range` mapping in `get_file_data`
(`routes/file/controllers.rs` lines 191–201). Casts follow Rust release
semantics: `(-start) as u32` is `(-start) mod 2^32` and `x as u64` is
`x mod 2^64`. -/
def toReadRange (range : Option (Int × Option Int)) : ReadRange :=
  match range with
  | none => .full
  | some (start, none) =>
    if start < 0 then .suffix (((-start) % (2 : Int) ^ 32).toNat)
    else .start ((start % (2 : Int) ^ 64).toNat)
  | some (start, some e) =>
    .range ((start % (2 : Int) ^ 64).toNat) ((e % (2 : Int) ^ 64).toNat)

/-- The `FileData` responder payload (`routes/file/dto.rs`). -/
structure FileData where
  status : Nat
  mime : String
  data : List Nat
deriving DecidableEq

/-- An HTTP response as far as the claims observe it. -/
structure HttpResponse where
  status : Nat
  headers : List (String × String)
  body : List Nat
deriving DecidableEq

/-- `FileData::respond_to`: sets `Accept-Ranges` to `"bytes"` for a 206
response and `"none"` otherwise, plus `Content-Type`, the status and the
streamed body. -/
def FileData.respond_to (fd : FileData) : HttpResponse :=
  let rangeUnit := if fd.status = 206 then "bytes" else "none"
  { status := fd.status,
    headers := [("Accept-Ranges", rangeUnit), ("Content-Type", fd.mime)],
    body := fd.data }

/-- Error responses of the `get_file_data` controller. -/
inductive ControllerError where
  | notFound : ControllerError
  | rangeNotSatisfiable : ControllerError
  | internalServerError : ControllerError
deriving DecidableEq

/-- The `get_file_data` controller (`routes/file/controllers.rs` lines
172–245): look up the file row, map the validated range header to a
`ReadRange`, read from the driver, and respond with status 200 for a full
read and 206 otherwise. -/
def get_file_data (file : Option File) (obj : Option (List Nat))
    (rangeHeader : Option (Int × Option Int)) :
    Except ControllerError HttpResponse :=
  match file with
  | none => .error .notFound
  | some f =>
    let readRange := toReadRange rangeHeader
    match LocalFileSystem.read obj readRange with
    | .error (.rangeStartExceedsFileSize _ _) => .error .rangeNotSatisfiable
    | .error (.rangeEndExceedsFileSize _ _) => .error .rangeNotSatisfiable
    | .error .ioRead => .error .internalServerError
    | .ok none => .error .notFound
    | .ok (some data) =>
      let status : Nat := match readRange with | .full => 200 | _ => 206
      .ok (FileData.respond_to
        { status := status, mime := f.mime, data := data })

/-- The size invariant of §3 of the spec: every staging row's `size`
column equals the byte length of its backing staging object (a missing
object counts as empty). -/
def sizeInvariant (st : SystemState) : Prop :=
  ∀ r ∈ st.stagingRows,
    r.size = (((lookupObj st.stagingObjs r.id).getD []).length : Int)

instance (st : SystemState) : Decidable (sizeInvariant st) := by
  unfold sizeInvariant; infer_instance

instance : IsTotal StagingFile StagingFileService.rowOldestFirst :=
  ⟨fun a b => by unfold StagingFileService.rowOldestFirst; omega⟩

instance : IsTrans StagingFile StagingFileService.rowOldestFirst :=
  ⟨fun a b c => by unfold StagingFileService.rowOldestFirst; omega⟩

theorem find?_filter_key {α : Type _} (l : List (Nat × α)) (id j : Nat)
    (h : j ≠ id) :
    (l.filter (fun p => p.1 ≠ id)).find? (fun p => p.1 = j) =
      l.find? (fun p => p.1 = j) := by
  have h3 : ¬(id = j) := fun hh => h hh.symm
  induction l with
  | nil => rfl
  | cons a t ih =>
    by_cases h1 : a.1 = id
    · have h2 : ¬(a.1 = j) := by omega
      simp only [List.filter_cons, List.find?_cons, decide_not] at ih ⊢
      rw [if_neg (by simp [h1])]
      simpa [h1, h3] using ih
    · by_cases h2 : a.1 = j
      · simp only [List.filter_cons, List.find?_cons, decide_not] at ih ⊢
        rw [if_pos (by simp [h1])]
        simp [List.find?_cons, h2]
      · simp only [List.filter_cons, List.find?_cons, decide_not] at ih ⊢
        rw [if_pos (by simp [h1])]
        simpa [List.find?_cons, h2] using ih

theorem lookupObj_insertObj_self (objs : List (Nat × List Nat)) (id : Nat)
    (v : List Nat) : lookupObj (insertObj objs id v) id = some v := by
  simp [lookupObj, insertObj, List.find?_cons]

theorem lookupObj_insertObj_ne (objs : List (Nat × List Nat)) (id j : Nat)
    (v : List Nat) (h : j ≠ id) :
    lookupObj (insertObj objs id v) j = lookupObj objs j := by
  simp only [lookupObj, insertObj, List.find?_cons]
  rw [show (decide ((id, v).1 = j)) = false by simp; omega]
  rw [find?_filter_key _ _ _ h]

theorem lookupObj_removeObj_self (objs : List (Nat × List Nat)) (id : Nat) :
    lookupObj (removeObj objs id) id = none := by
  simp only [lookupObj, removeObj]
  induction objs with
  | nil => rfl
  | cons a t ih =>
    by_cases h1 : a.1 = id <;>
      simp only [List.filter_cons, List.find?_cons, decide_not] at ih ⊢
    · rw [if_neg (by simp [h1])]; exact ih
    · rw [if_pos (by simp [h1])]
      simp only [List.find?_cons] at ih ⊢
      simpa [h1] using ih

theorem lookupObj_removeObj_ne (objs : List (Nat × List Nat)) (id j : Nat)
    (h : j ≠ id) : lookupObj (removeObj objs id) j = lookupObj objs j := by
  simp only [lookupObj, removeObj]
  rw [find?_filter_key _ _ _ h]

theorem findRow_deleteRow_self (rows : List StagingFile) (id : Nat) :
    findRow (deleteRow rows id) id = none := by
  simp only [findRow, deleteRow]
  induction rows with
  | nil => rfl
  | cons r t ih =>
    by_cases h1 : r.id = id <;>
      simp only [List.filter_cons, List.find?_cons, decide_not] at ih ⊢
    · rw [if_neg (by simp [h1])]; exact ih
    · rw [if_pos (by simp [h1])]
      simp only [List.find?_cons] at ih ⊢
      simpa [h1] using ih

theorem findRow_updateRowSize_self (rows : List StagingFile) (id : Nat)
    (size : Int) :
    findRow (updateRowSize rows id size) id =
      (findRow rows id).map (fun r => { r with size := size }) := by
  simp only [findRow, updateRowSize]
  induction rows with
  | nil => rfl
  | cons r t ih =>
    by_cases h1 : r.id = id <;>
      simp only [List.map_cons, List.find?_cons] at ih ⊢
    · rw [if_pos h1]
      simp [List.find?_cons, h1, ih]
    · rw [if_neg h1]
      simp [List.find?_cons, h1, ih]

theorem findRow_updateRowSize_ne (rows : List StagingFile) (id j : Nat)
    (size : Int) (h : j ≠ id) :
    findRow (updateRowSize rows id size) j = findRow rows j := by
  simp only [findRow, updateRowSize]
  induction rows with
  | nil => rfl
  | cons r t ih =>
    by_cases h1 : r.id = id
    · have h2 : ¬(r.id = j) := by omega
      simp only [List.map_cons, List.find?_cons] at ih ⊢
      rw [if_pos h1]
      have h3 : ¬(id = j) := by omega
      simp [List.find?_cons, h2, h3, ih]
    · simp only [List.map_cons, List.find?_cons] at ih ⊢
      rw [if_neg h1]
      by_cases h2 : r.id = j <;> simp [List.find?_cons, h2, ih]

theorem rangeTakeCount_eq (s e : Nat) (hse : s ≤ e) (he : e < 2 ^ 64 - 1) :
    rangeTakeCount s e = e - s + 1 := by
  unfold rangeTakeCount u64Add u64Sub
  have hp : (2 : Nat) ^ 64 = 18446744073709551616 := by norm_num
  rw [hp] at *
  omega

/-- C5: driver `read` on a resident object of length `file_size`: `Full`
streams the whole object; `Start s` fails with
`RangeStartExceedsFileSize` iff `file_size ≤ s`, else streams from `s` to
EOF; `Range s e` with `s ≤ e` fails with `RangeEndExceedsFileSize` iff
`file_size ≤ e`, else streams exactly `e - s + 1` bytes starting at `s`;
`Suffix n` never fails and streams the last `min n file_size` bytes (a
suffix larger than the file yields the whole file). -/
theorem claim_C5_read_range_semantics (content : List Nat) :
    (LocalFileSystem.read (some content) .full = .ok (some content)) ∧
    (∀ s : Nat,
      (content.length ≤ s →
        LocalFileSystem.read (some content) (.start s) =
          .error (.rangeStartExceedsFileSize s content.length)) ∧
      (s < content.length →
        LocalFileSystem.read (some content) (.start s) =
          .ok (some (content.drop s)))) ∧
    (∀ s e : Nat, s ≤ e → e < 2 ^ 64 - 1 →
      (content.length ≤ e →
        LocalFileSystem.read (some content) (.range s e) =
          .error (.rangeEndExceedsFileSize e content.length)) ∧
      (e < content.length →
        LocalFileSystem.read (some content) (.range s e) =
          .ok (some ((content.drop s).take (e - s + 1))) ∧
        ((content.drop s).take (e - s + 1)).length = e - s + 1)) ∧
    (∀ n : Nat,
      LocalFileSystem.read (some content) (.suffix n) =
        .ok (some (content.drop (content.length - min n content.length))) ∧
      (content.drop (content.length - min n content.length)).length =
        min n content.length) := by
  refine ⟨rfl, fun s => ⟨fun h => ?_, fun h => ?_⟩,
    fun s e hse he => ⟨fun h => ?_, fun h => ?_⟩, fun n => ⟨?_, ?_⟩⟩
  · simp [LocalFileSystem.read, h]
  · simp [LocalFileSystem.read, Nat.not_le.mpr h]
  · simp [LocalFileSystem.read, h]
  · constructor
    · simp [LocalFileSystem.read, Nat.not_le.mpr h,
        rangeTakeCount_eq s e hse he]
    · simp only [List.length_take, List.length_drop]
      omega
  · simp [LocalFileSystem.read]
  · simp only [List.length_drop]
    omega

theorem claim_C5_read_range_semantics_witness :
    LocalFileSystem.read (some [10, 20, 30, 40]) (.range 1 2) =
      .ok (some [20, 30]) ∧
    LocalFileSystem.read (some [10, 20, 30, 40]) (.suffix 9) =
      .ok (some [10, 20, 30, 40]) := by
  constructor
  · have h := ((claim_C5_read_range_semantics [10, 20, 30, 40]).2.2.1 1 2
      (by norm_num) (by norm_num)).2 (by norm_num)
    exact h.1.trans (by rfl)
  · have h := ((claim_C5_read_range_semantics [10, 20, 30, 40]).2.2.2 9).1
    exact h.trans (by rfl)

/-- C6: a validated `write_staging` seeks to `offset`, overwrites or
extends the bytes from there (leaving bytes past the written window
intact) and returns the object's length after the write; in particular
writing `"file "` at offset 0 into a fresh object and then `"content"` at
offset 5 yields size 12 and content `"file content"` (byte values below
are the ASCII codes of those strings). -/
theorem claim_C6_sequential_write (content data : List Nat) (offset : Nat)
    (h1 : content.length ≤ i64MaxU) (h2 : offset ≤ content.length)
    (h3 : offset + content.length ≤ i64MaxU) :
    (LocalFileSystem.write_staging (some content) offset data none false =
      (some (LocalFileSystem.overwriteAt content offset data),
        .ok (LocalFileSystem.overwriteAt content offset data).length)) ∧
    ((LocalFileSystem.overwriteAt content offset data).length =
      max (offset + data.length) content.length) ∧
    (LocalFileSystem.write_staging none 0 [102, 105, 108, 101, 32] none
        false =
      (some [102, 105, 108, 101, 32], .ok 5)) ∧
    (LocalFileSystem.write_staging (some [102, 105, 108, 101, 32]) 5
        [99, 111, 110, 116, 101, 110, 116] none false =
      (some [102, 105, 108, 101, 32, 99, 111, 110, 116, 101, 110, 116],
        .ok 12)) := by
  refine ⟨?_, ?_, by decide, by decide⟩
  · simp only [LocalFileSystem.write_staging, Option.getD_some]
    rw [if_neg (by omega), if_neg (by omega), if_neg (by omega)]
  · simp only [LocalFileSystem.overwriteAt, List.length_append,
      List.length_take, List.length_drop]
    omega

theorem claim_C6_sequential_write_witness :
    LocalFileSystem.write_staging (some [7]) 1 [8, 9] none false =
      (some [7, 8, 9], .ok 3) := by
  have h := (claim_C6_sequential_write [7] [8, 9] 1 (by norm_num [i64MaxU])
    (by norm_num) (by norm_num [i64MaxU])).1
  exact h.trans (by rfl)

/-- C4: `write_staging` validates, in this order, before writing
anything: (a) current length above `i64::MAX` → `FileTooLarge`;
(b) `offset` above the current length → `OffsetExceedsFileSize`;
(c) `offset + current length` above `i64::MAX` → `OffsetTooLarge`; and
whenever the result is one of these three rejections the object holds the
same bytes as before the call. -/
theorem claim_C4_write_validation (content data : List Nat) (offset : Nat)
    (copyFail : Option Nat) (restatFails : Bool) :
    (i64MaxU < content.length →
      LocalFileSystem.write_staging (some content) offset data copyFail
          restatFails =
        (some content, .error (.fileTooLarge i64MaxU content.length))) ∧
    (content.length ≤ i64MaxU → content.length < offset →
      LocalFileSystem.write_staging (some content) offset data copyFail
          restatFails =
        (some content,
          .error (.offsetExceedsFileSize offset content.length))) ∧
    (content.length ≤ i64MaxU → offset ≤ content.length →
        i64MaxU < offset + content.length →
      LocalFileSystem.write_staging (some content) offset data copyFail
          restatFails =
        (some content, .error (.offsetTooLarge i64MaxU offset))) ∧
    (∀ a b,
      (LocalFileSystem.write_staging (some content) offset data copyFail
          restatFails).2 =
          .error (.fileTooLarge a b) →
      (LocalFileSystem.write_staging (some content) offset data copyFail
          restatFails).1 =
        some content) ∧
    (∀ a b,
      (LocalFileSystem.write_staging (some content) offset data copyFail
          restatFails).2 =
          .error (.offsetExceedsFileSize a b) →
      (LocalFileSystem.write_staging (some content) offset data copyFail
          restatFails).1 =
        some content) ∧
    (∀ a b,
      (LocalFileSystem.write_staging (some content) offset data copyFail
          restatFails).2 =
          .error (.offsetTooLarge a b) →
      (LocalFileSystem.write_staging (some content) offset data copyFail
          restatFails).1 =
        some content) := by
  simp only [LocalFileSystem.write_staging, Option.getD_some]
  split_ifs with c1 c2 c3
  · exact ⟨fun _ => rfl, fun h => by omega, fun h => by omega,
      fun a b _ => rfl, fun a b h => by simp at h, fun a b h => by simp at h⟩
  · exact ⟨fun h => by omega, fun _ _ => rfl, fun _ h => by omega,
      fun a b h => by simp at h, fun a b _ => rfl, fun a b h => by simp at h⟩
  · exact ⟨fun h => by omega, fun _ h => by omega, fun _ _ _ => rfl,
      fun a b h => by simp at h, fun a b h => by simp at h, fun a b _ => rfl⟩
  · cases copyFail with
    | none =>
      exact ⟨fun h => by omega, fun _ h => by omega, fun _ _ h => by omega,
        fun a b h => by simp at h, fun a b h => by simp at h,
        fun a b h => by simp at h⟩
    | some k =>
      exact ⟨fun h => by omega, fun _ h => by omega, fun _ _ h => by omega,
        fun a b h => by simp at h, fun a b h => by simp at h,
        fun a b h => by simp at h⟩

theorem claim_C4_write_validation_witness :
    (LocalFileSystem.write_staging (some [1, 2]) 5 [9] none false =
      (some [1, 2], .error (.offsetExceedsFileSize 5 2))) ∧
    (LocalFileSystem.write_staging (some (List.replicate (2 ^ 63) 0)) 0 [9]
        none false =
      (some (List.replicate (2 ^ 63) 0),
        .error (.fileTooLarge i64MaxU (2 ^ 63)))) ∧
    (LocalFileSystem.write_staging (some (List.replicate i64MaxU 0)) i64MaxU
        [9] none false =
      (some (List.replicate i64MaxU 0),
        .error (.offsetTooLarge i64MaxU i64MaxU))) := by
  refine ⟨?_, ?_, ?_⟩
  · exact (claim_C4_write_validation [1, 2] [9] 5 none false).2.1
      (by norm_num [i64MaxU]) (by norm_num)
  · have h := (claim_C4_write_validation (List.replicate (2 ^ 63) 0) [9] 0
      none false).1 (by rw [List.length_replicate]; norm_num [i64MaxU])
    rw [List.length_replicate] at h
    exact h
  · have h := (claim_C4_write_validation (List.replicate i64MaxU 0) [9]
      i64MaxU none false).2.2.1 (by rw [List.length_replicate])
      (by rw [List.length_replicate])
      (by rw [List.length_replicate]; norm_num [i64MaxU])
    exact h

/-- C8: the driver's inclusive-range read validates only
`end < file_size` (`start` is checked neither against `end` nor against
the file size), the streamed-length expression `end - start + 1` is `u64`
arithmetic — equal to `(end - start + 1) mod 2^64`, and exactly
`end - start + 1` only under `start ≤ end` (at `start = 7, end = 5` it
wraps to `2^64 - 1`) — and the upstream Range-header parser rejects
`end < start` as a bad request. -/
theorem claim_C8_driver_range_trust :
    (∀ s e : Int, ∀ d : Bool, e < s →
      ∃ err, validateRangeHeader s (some e) d = .error err) ∧
    (∀ content : List Nat, ∀ s e : Nat, e < content.length →
      LocalFileSystem.read (some content) (.range s e) =
        .ok (some ((content.drop s).take (rangeTakeCount s e)))) ∧
    (∀ s e : Nat, s < 2 ^ 64 → e < 2 ^ 64 →
      ((rangeTakeCount s e : Int) = ((e : Int) - s + 1) % 2 ^ 64) ∧
      (s ≤ e → e < 2 ^ 64 - 1 → rangeTakeCount s e = e - s + 1)) ∧
    (rangeTakeCount 7 5 = 2 ^ 64 - 1) := by
  refine ⟨?_, ?_, ?_, by norm_num [rangeTakeCount, u64Add, u64Sub]⟩
  · intro s e d h
    simp only [validateRangeHeader]
    split_ifs with a b
    · exact ⟨.negativeStart, rfl⟩
    · exact ⟨.negativeEnd, rfl⟩
    · exact ⟨.endBeforeStart, rfl⟩
  · intro content s e h
    simp [LocalFileSystem.read, Nat.not_le.mpr h]
  · intro s e hs he
    constructor
    · unfold rangeTakeCount u64Add u64Sub
      have hp : (2 : Nat) ^ 64 = 18446744073709551616 := by norm_num
      have hp2 : (2 : Int) ^ 64 = 18446744073709551616 := by norm_num
      rw [hp, hp2] at *
      omega
    · exact fun hse he2 => rangeTakeCount_eq s e hse he2

theorem claim_C8_driver_range_trust_witness :
    (∃ err, validateRangeHeader 5 (some 3) false = .error err) ∧
    (LocalFileSystem.read (some [1, 2, 3]) (.range 9 2) = .ok (some [])) ∧
    (rangeTakeCount 1 2 = 2) := by
  refine ⟨claim_C8_driver_range_trust.1 5 3 false (by norm_num), ?_, ?_⟩
  · have h := claim_C8_driver_range_trust.2.1 [1, 2, 3] 9 2 (by norm_num)
    exact h.trans (by rfl)
  · exact (claim_C8_driver_range_trust.2.2.1 1 2 (by norm_num)
      (by norm_num)).2 (by norm_num) (by norm_num)

/-- C10: a Range header consisting of the single negative bound `-n`
passes the parser's validation and is mapped by the handler to
`Suffix ((-start) as u32)`; for every `n` with `u32::MAX < n ≤ i64::MAX`
this cast truncates to `n mod 2^32`, which is strictly less than `n` —
the request is silently served as a smaller suffix, neither rejected nor
clamped. -/
theorem claim_C10_suffix_cast_truncates (n : Int)
    (h1 : (2 ^ 32 - 1 : Int) < n) (h2 : n ≤ 2 ^ 63 - 1) :
    validateRangeHeader (-n) none false = .ok (-n, none) ∧
    toReadRange (some (-n, none)) = .suffix ((n % 2 ^ 32).toNat) ∧
    ((n % 2 ^ 32).toNat : Int) < n := by
  refine ⟨rfl, ?_, ?_⟩
  · simp only [toReadRange]
    rw [if_pos (by omega), neg_neg]
  · have ha := Int.emod_nonneg n (show (2 : Int) ^ 32 ≠ 0 by norm_num)
    have hb := Int.emod_lt_of_pos n (show (0 : Int) < 2 ^ 32 by norm_num)
    omega

theorem claim_C10_suffix_cast_truncates_witness :
    toReadRange (some (-(2 ^ 32 : Int), none)) = .suffix 0 ∧
    ((0 : Nat) : Int) < (2 ^ 32 : Int) := by
  have h := claim_C10_suffix_cast_truncates (2 ^ 32) (by norm_num)
    (by norm_num)
  exact ⟨h.2.1.trans (by norm_num), by norm_num⟩

/-- C9: every successful `get_file_data` response has the partial-content
status 206 exactly when the requested range is not `Full` (and the plain
200 for a full read), and carries an `Accept-Ranges` header advertising
range support (`"bytes"` on a partial response, `"none"` on a full one). -/
theorem claim_C9_partial_status_and_accept_ranges (f : File)
    (obj : Option (List Nat)) (rangeHeader : Option (Int × Option Int))
    (resp : HttpResponse)
    (h : get_file_data (some f) obj rangeHeader = .ok resp) :
    (resp.status = 206 ↔ toReadRange rangeHeader ≠ .full) ∧
    (resp.status = 200 ↔ toReadRange rangeHeader = .full) ∧
    ("Accept-Ranges",
      if resp.status = 206 then "bytes" else "none") ∈ resp.headers := by
  unfold get_file_data at h
  dsimp only at h
  cases hr : LocalFileSystem.read obj (toReadRange rangeHeader) with
  | error e =>
    rw [hr] at h
    cases e <;> simp at h
  | ok v =>
    rw [hr] at h
    cases v with
    | none => simp at h
    | some data =>
      simp only [Except.ok.injEq] at h
      subst h
      cases hrr : toReadRange rangeHeader <;>
        simp [hrr, FileData.respond_to]

theorem claim_C9_partial_status_and_accept_ranges_witness :
    ((({ status := 206,
          headers := [("Accept-Ranges", "bytes"),
            ("Content-Type", "text/plain")],
          body := [2, 3] } : HttpResponse)).status = 206 ↔
      toReadRange (some ((1 : Int), (none : Option Int))) ≠ .full) ∧
    ((({ status := 206,
          headers := [("Accept-Ranges", "bytes"),
            ("Content-Type", "text/plain")],
          body := [2, 3] } : HttpResponse)).status = 200 ↔
      toReadRange (some ((1 : Int), (none : Option Int))) = .full) ∧
    ("Accept-Ranges",
      if (({ status := 206,
              headers := [("Accept-Ranges", "bytes"),
                ("Content-Type", "text/plain")],
              body := [2, 3] } : HttpResponse)).status = 206 then "bytes"
      else "none") ∈
      (({ status := 206,
          headers := [("Accept-Ranges", "bytes"),
            ("Content-Type", "text/plain")],
          body := [2, 3] } : HttpResponse)).headers :=
  claim_C9_partial_status_and_accept_ranges
    { id := 1, name := "a", mime := "text/plain", size := 3, hash := 0 }
    (some [1, 2, 3]) (some ((1 : Int), (none : Option Int))) _ (by decide)


theorem remove_eq_of_findRow (st : SystemState) (id : Nat)
    (sf : StagingFile) (hrow : findRow st.stagingRows id = some sf) :
    StagingFileService.remove_staging_file_by_id st id false =
      ({ st with stagingRows := deleteRow st.stagingRows id }, some sf) := by
  unfold StagingFileService.remove_staging_file_by_id
  rw [hrow]
  rfl

/-- C2: promotion of a staging id returns `None` when no staging row
exists, and when the row exists but no staged bytes were ever written it
fails with `FileNotYetFilled` and the transaction rolls back: the state is
unchanged, the staging row is still present, and no resident `File` row
for the id exists afterwards (given none existed before). -/
theorem claim_C2_promotion_absent_or_unfilled (env : MimeEnv)
    (hashFn : HashFn) (stagingDir : String) (shouldCopy deleteFails : Bool)
    (st : SystemState) (id : Nat) :
    (findRow st.stagingRows id = none →
      FileService.create_file_from_staging_file_id env hashFn stagingDir
          shouldCopy deleteFails st id = (st, .ok none)) ∧
    (∀ sf, findRow st.stagingRows id = some sf →
      lookupObj st.stagingObjs id = none →
      FileService.create_file_from_staging_file_id env hashFn stagingDir
          shouldCopy deleteFails st id = (st, .error .fileNotYetFilled) ∧
      findRow
        (FileService.create_file_from_staging_file_id env hashFn stagingDir
          shouldCopy deleteFails st id).1.stagingRows id = some sf ∧
      (findFile st.files id = none →
        findFile
          (FileService.create_file_from_staging_file_id env hashFn stagingDir
            shouldCopy deleteFails st id).1.files id = none)) := by
  constructor
  · intro h
    unfold FileService.create_file_from_staging_file_id
      StagingFileService.remove_staging_file_by_id
    rw [h]
  · intro sf hrow hobj
    have hmain : FileService.create_file_from_staging_file_id env hashFn
        stagingDir shouldCopy deleteFails st id =
        (st, .error .fileNotYetFilled) := by
      unfold FileService.create_file_from_staging_file_id
      rw [remove_eq_of_findRow st id sf hrow]
      dsimp only
      rw [hobj]
    refine ⟨hmain, ?_, fun hf => ?_⟩
    · rw [hmain]; exact hrow
    · rw [hmain]; exact hf

theorem claim_C2_promotion_absent_or_unfilled_witness :
    (FileService.create_file_from_staging_file_id
        ⟨fun _ => none, fun _ => none⟩ ⟨fun _ => 0⟩ "st" false false
        { stagingRows := [], files := [], stagingObjs := [],
          residentObjs := [] } 1 =
      ({ stagingRows := [], files := [], stagingObjs := [],
          residentObjs := [] }, .ok none)) ∧
    (FileService.create_file_from_staging_file_id
        ⟨fun _ => none, fun _ => none⟩ ⟨fun _ => 0⟩ "st" false false
        { stagingRows :=
            [{ id := 1, name := "a", mime := none, size := 0,
               stagedAt := 0 }],
          files := [], stagingObjs := [], residentObjs := [] } 1 =
      ({ stagingRows :=
            [{ id := 1, name := "a", mime := none, size := 0,
               stagedAt := 0 }],
          files := [], stagingObjs := [], residentObjs := [] },
        .error .fileNotYetFilled)) := by
  constructor
  · exact (claim_C2_promotion_absent_or_unfilled
      ⟨fun _ => none, fun _ => none⟩ ⟨fun _ => 0⟩ "st" false false
      { stagingRows := [], files := [], stagingObjs := [],
        residentObjs := [] } 1).1 (by decide)
  · exact ((claim_C2_promotion_absent_or_unfilled
      ⟨fun _ => none, fun _ => none⟩ ⟨fun _ => 0⟩ "st" false false
      { stagingRows :=
          [{ id := 1, name := "a", mime := none, size := 0,
             stagedAt := 0 }],
        files := [], stagingObjs := [], residentObjs := [] } 1).2
      { id := 1, name := "a", mime := none, size := 0, stagedAt := 0 }
      (by decide) (by decide)).1

theorem findRow_id_eq (rows : List StagingFile) (id : Nat)
    (sf : StagingFile) (h : findRow rows id = some sf) : sf.id = id := by
  unfold findRow at h
  have h2 := List.find?_some h
  simpa using h2

theorem commit_staging_eq (shouldCopy deleteFails : Bool)
    (staging resident : List (Nat × List Nat)) (id : Nat) (bytes : List Nat)
    (h : lookupObj staging id = some bytes) :
    ∃ so, LocalFileSystem.commit_staging shouldCopy deleteFails staging
        resident id =
      some (so, (id, bytes) :: resident.filter (fun p => p.1 ≠ id)) ∧
      ∀ j, j ≠ id → lookupObj so j = lookupObj staging j := by
  unfold LocalFileSystem.commit_staging
  rw [show (staging.find? fun p => p.1 = id).map (fun p => p.2) =
      some bytes from h]
  by_cases hc : (shouldCopy && deleteFails) = true
  · refine ⟨staging, ?_, fun j hj => rfl⟩
    dsimp only
    rw [if_pos hc]
  · refine ⟨staging.filter (fun p => p.1 ≠ id), ?_, fun j hj =>
      lookupObj_removeObj_ne staging id j hj⟩
    dsimp only
    rw [if_neg hc]

/-- C1: promotion of a staging id whose row and staged bytes both exist
returns `Some file` with `file.id` the staging id, `file.size` the byte
length of the staged object, `file.hash` the content hash of the staged
bytes, and `file.mime` resolved as declared MIME, else content-sniffed,
else extension-guessed, else `"application/octet-stream"`; afterwards the
staging row is deleted and the staged bytes are present in the resident
namespace. -/
theorem claim_C1_promotion_success (env : MimeEnv) (hashFn : HashFn)
    (stagingDir : String) (shouldCopy deleteFails : Bool) (st : SystemState)
    (id : Nat) (sf : StagingFile) (bytes : List Nat)
    (hrow : findRow st.stagingRows id = some sf)
    (hbytes : lookupObj st.stagingObjs id = some bytes) :
    ∃ f : File,
      (FileService.create_file_from_staging_file_id env hashFn stagingDir
          shouldCopy deleteFails st id).2 = .ok (some f) ∧
      f.id = id ∧
      f.size = (bytes.length : Int) ∧
      f.hash = hashFn.hash bytes ∧
      (∀ m, sf.mime = some m → f.mime = m) ∧
      (sf.mime = none → ∀ m, env.infer bytes = some m → f.mime = m) ∧
      (sf.mime = none → env.infer bytes = none →
        ∀ m, env.guessFromPath (generate_staging_file_path stagingDir id) =
            some m → f.mime = m) ∧
      (sf.mime = none → env.infer bytes = none →
        env.guessFromPath (generate_staging_file_path stagingDir id) =
            none →
        f.mime = "application/octet-stream") ∧
      findRow (FileService.create_file_from_staging_file_id env hashFn
          stagingDir shouldCopy deleteFails st id).1.stagingRows id =
        none ∧
      lookupObj (FileService.create_file_from_staging_file_id env hashFn
          stagingDir shouldCopy deleteFails st id).1.residentObjs id =
        some bytes := by
  have hid := findRow_id_eq st.stagingRows id sf hrow
  obtain ⟨so, hco, hpres⟩ := commit_staging_eq shouldCopy deleteFails
    st.stagingObjs st.residentObjs id bytes hbytes
  have hmain : FileService.create_file_from_staging_file_id env hashFn
      stagingDir shouldCopy deleteFails st id =
      ({ stagingRows := deleteRow st.stagingRows id,
         files := st.files ++
           [{ id := sf.id, name := sf.name,
              mime := match sf.mime with
                | some m => m
                | none => compute_file_mime env
                    (generate_staging_file_path stagingDir id) bytes,
              size := (bytes.length : Int), hash := hashFn.hash bytes }],
         stagingObjs := so,
         residentObjs :=
           (id, bytes) :: st.residentObjs.filter (fun p => p.1 ≠ id) },
        .ok (some
          { id := sf.id, name := sf.name,
            mime := match sf.mime with
              | some m => m
              | none => compute_file_mime env
                  (generate_staging_file_path stagingDir id) bytes,
            size := (bytes.length : Int), hash := hashFn.hash bytes })) := by
    unfold FileService.create_file_from_staging_file_id
    rw [remove_eq_of_findRow st id sf hrow]
    dsimp only
    rw [hbytes]
    dsimp only
    rw [hco]
  refine ⟨_, by rw [hmain], hid, rfl, rfl, ?_, ?_, ?_, ?_, ?_, ?_⟩
  · intro m hm
    simp [hm]
  · intro hm m hi
    simp [hm, compute_file_mime, hi]
  · intro hm hi m hg
    simp [hm, compute_file_mime, hi, hg]
  · intro hm hi hg
    simp [hm, compute_file_mime, hi, hg]
  · rw [hmain]
    exact findRow_deleteRow_self st.stagingRows id
  · rw [hmain]
    simp [lookupObj, List.find?_cons]

theorem remove_eq_of_findRow_none (st : SystemState) (id : Nat)
    (h : findRow st.stagingRows id = none) :
    StagingFileService.remove_staging_file_by_id st id false = (st, none) := by
  unfold StagingFileService.remove_staging_file_by_id
  rw [h]

theorem write_staging_ok (obj : Option (List Nat)) (offset : Nat)
    (data : List Nat) (copyFail : Option Nat) (size : Nat)
    (h : (LocalFileSystem.write_staging obj offset data copyFail false).2 =
      .ok size) :
    ∃ c, (LocalFileSystem.write_staging obj offset data copyFail false).1 =
        some c ∧ size = c.length := by
  unfold LocalFileSystem.write_staging at h ⊢
  dsimp only at h ⊢
  split_ifs at h ⊢ with c1 c2 c3
  cases copyFail with
  | none =>
    simp only [Except.ok.injEq] at h
    exact ⟨_, rfl, h.symm⟩
  | some k => simp at h

theorem write_staging_write_err (obj : Option (List Nat)) (offset : Nat)
    (data : List Nat) (copyFail : Option Nat) (k : Nat)
    (h : (LocalFileSystem.write_staging obj offset data copyFail false).2 =
      .error (.write k)) :
    ∃ c, (LocalFileSystem.write_staging obj offset data copyFail false).1 =
        some c ∧ c.length = k := by
  unfold LocalFileSystem.write_staging at h ⊢
  dsimp only at h ⊢
  split_ifs at h ⊢ with c1 c2 c3
  · simp at h
  · simp at h
  · simp at h
  · cases copyFail with
    | none => simp at h
    | some k2 =>
      simp only [Except.error.injEq, WriteError.write.injEq] at h
      exact ⟨_, rfl, h⟩

theorem write_staging_ok_restat_failed (obj : Option (List Nat))
    (offset : Nat) (data : List Nat) (size : Nat)
    (h : (LocalFileSystem.write_staging obj offset data none true).2 =
      .ok size) :
    size = (obj.getD []).length ∧
    (LocalFileSystem.write_staging obj offset data none true).1 =
      some (LocalFileSystem.overwriteAt (obj.getD []) offset data) := by
  unfold LocalFileSystem.write_staging at h ⊢
  dsimp only at h ⊢
  split_ifs at h ⊢ with c1 c2 c3
  simp only [Except.ok.injEq] at h
  exact ⟨h.symm, rfl⟩

theorem write_staging_write_err_restat_failed (obj : Option (List Nat))
    (offset : Nat) (data : List Nat) (copyFail : Option Nat) (k : Nat)
    (h : (LocalFileSystem.write_staging obj offset data copyFail true).2 =
      .error (.write k)) :
    k = (obj.getD []).length := by
  unfold LocalFileSystem.write_staging at h
  dsimp only at h
  split_ifs at h with c1 c2 c3
  · simp at h
  · simp at h
  · simp at h
  · cases copyFail with
    | none => simp at h
    | some k2 =>
      simp only [Except.error.injEq, WriteError.write.injEq] at h
      exact h.symm

/-- C3 (amended): after creation with a fresh id, after a fill whose copy
and post-write re-stat both succeed, after removal and after promotion,
each StagingFile row's size equals the byte length of its backing staging
object. A fill whose driver copy fails partway commits the transaction
without updating the size column (so the row may undercount the bytes on
disk), and the size inside the returned `WriteError::Write` is the
re-stat'd post-attempt length only when the re-stat succeeds — when the
re-stat also fails it is the stale pre-write length. A fill whose copy
succeeds but whose re-stat fails commits the stale pre-write length as
the size column while the object holds the post-write bytes. -/
theorem claim_C3_amended_size_invariant (st : SystemState)
    (hInv : sizeInvariant st) :
    (∀ id name mime now, lookupObj st.stagingObjs id = none →
      sizeInvariant
        (StagingFileService.create_staging_file st id name mime now).1) ∧
    (∀ id offset data st2 r,
      StagingFileService.fill_staging_file_by_id st id offset data none
          false =
        (st2, .ok r) → sizeInvariant st2) ∧
    (∀ id offset data copyFail restatFails st2 e,
      StagingFileService.fill_staging_file_by_id st id offset data
          copyFail restatFails = (st2, .error e) →
      st2.stagingRows = st.stagingRows ∧
      (restatFails = false → ∀ k, e = .write k →
        ∃ c, lookupObj st2.stagingObjs id = some c ∧ c.length = k) ∧
      (restatFails = true → ∀ k, e = .write k →
        k = ((lookupObj st.stagingObjs id).getD []).length)) ∧
    (∀ id offset data st2 r sf,
      findRow st.stagingRows id = some sf →
      StagingFileService.fill_staging_file_by_id st id offset data none
          true =
        (st2, .ok r) →
      findRow st2.stagingRows id =
        some { sf with
          size := ((((lookupObj st.stagingObjs id).getD []).length : Nat) :
            Int) } ∧
      lookupObj st2.stagingObjs id =
        some (LocalFileSystem.overwriteAt
          ((lookupObj st.stagingObjs id).getD []) (offset.getD 0) data)) ∧
    (∀ id deleteData,
      sizeInvariant
        (StagingFileService.remove_staging_file_by_id st id deleteData).1) ∧
    (∀ env hashFn stagingDir shouldCopy deleteFails id,
      sizeInvariant
        (FileService.create_file_from_staging_file_id env hashFn stagingDir
          shouldCopy deleteFails st id).1) := by
  refine ⟨?_, ?_, ?_, ?_, ?_, ?_⟩
  · -- creation with size 0 and a fresh id
    intro id name mime now hfresh r hr
    simp only [StagingFileService.create_staging_file] at hr ⊢
    rcases List.mem_append.mp hr with h | h
    · exact hInv r h
    · have hreq : r = { id := id, name := name, mime := mime, size := 0,
                        stagedAt := now } := by simpa using h
      subst hreq
      simp [hfresh]
  · -- successful fill
    intro id offset data st2 r hfill
    unfold StagingFileService.fill_staging_file_by_id at hfill
    cases hfr : findRow st.stagingRows id with
    | none =>
      rw [hfr] at hfill
      dsimp only at hfill
      rw [Prod.mk.injEq] at hfill
      rw [← hfill.1]
      exact hInv
    | some sf0 =>
      rw [hfr] at hfill
      dsimp only at hfill
      cases hw : (LocalFileSystem.write_staging (lookupObj st.stagingObjs id)
          (offset.getD 0) data none false).2 with
      | error e => rw [hw] at hfill; simp at hfill
      | ok size =>
        rw [hw] at hfill
        dsimp only at hfill
        rw [Prod.mk.injEq] at hfill
        obtain ⟨c, hc1, hc2⟩ := write_staging_ok (lookupObj st.stagingObjs id)
          (offset.getD 0) data none size hw
        rw [← hfill.1]
        intro r2 hr2
        simp only [updateRowSize, List.mem_map] at hr2
        obtain ⟨r0, hr0, hr0eq⟩ := hr2
        by_cases hid : r0.id = id
        · rw [if_pos hid] at hr0eq
          subst hr0eq
          simp only [hc1, Option.getD_some]
          rw [hid, lookupObj_insertObj_self]
          simp [hc2]
        · rw [if_neg hid] at hr0eq
          subst hr0eq
          simp only [hc1, Option.getD_some]
          rw [lookupObj_insertObj_ne _ _ _ _ hid]
          exact hInv r0 hr0
  · -- failed fill: rows unchanged; the error carries the re-stat'd length
    -- when the re-stat succeeds and the stale pre-write length otherwise
    intro id offset data copyFail restatFails st2 e hfill
    unfold StagingFileService.fill_staging_file_by_id at hfill
    cases hfr : findRow st.stagingRows id with
    | none =>
      rw [hfr] at hfill
      dsimp only at hfill
      simp at hfill
    | some sf0 =>
      rw [hfr] at hfill
      dsimp only at hfill
      cases hw : (LocalFileSystem.write_staging (lookupObj st.stagingObjs id)
          (offset.getD 0) data copyFail restatFails).2 with
      | ok size => rw [hw] at hfill; simp at hfill
      | error e2 =>
        rw [hw] at hfill
        dsimp only at hfill
        rw [Prod.mk.injEq] at hfill
        obtain ⟨h1, h2⟩ := hfill
        simp only [Except.error.injEq] at h2
        subst h2
        refine ⟨by rw [← h1], fun hrf k hk => ?_, fun hrf k hk => ?_⟩
        · subst hrf
          subst hk
          obtain ⟨c, hc1, hc2⟩ := write_staging_write_err
            (lookupObj st.stagingObjs id) (offset.getD 0) data copyFail k hw
          refine ⟨c, ?_, hc2⟩
          rw [← h1]
          dsimp only
          rw [hc1, Option.getD_some, lookupObj_insertObj_self]
        · subst hrf
          subst hk
          exact write_staging_write_err_restat_failed
            (lookupObj st.stagingObjs id) (offset.getD 0) data copyFail k hw
  · -- fill whose copy succeeds but whose re-stat fails: the stale
    -- pre-write length is committed while the object holds the new bytes
    intro id offset data st2 r sf hrow hfill
    unfold StagingFileService.fill_staging_file_by_id at hfill
    rw [hrow] at hfill
    dsimp only at hfill
    cases hw : (LocalFileSystem.write_staging (lookupObj st.stagingObjs id)
        (offset.getD 0) data none true).2 with
    | error e => rw [hw] at hfill; simp at hfill
    | ok size =>
      rw [hw] at hfill
      dsimp only at hfill
      rw [Prod.mk.injEq] at hfill
      obtain ⟨hsz, hfst⟩ := write_staging_ok_restat_failed
        (lookupObj st.stagingObjs id) (offset.getD 0) data size hw
      rw [← hfill.1]
      constructor
      · dsimp only
        rw [findRow_updateRowSize_self, hrow, hsz]
        rfl
      · dsimp only
        rw [hfst, Option.getD_some, lookupObj_insertObj_self]
  · -- removal
    intro id deleteData
    unfold StagingFileService.remove_staging_file_by_id
    cases hfr : findRow st.stagingRows id with
    | none => exact hInv
    | some sf0 =>
      cases deleteData with
      | false =>
        intro r hr
        dsimp only at hr ⊢
        rw [if_neg (by simp)] at hr ⊢
        have hmem : r ∈ st.stagingRows := by
          simp only [deleteRow, List.mem_filter] at hr
          exact hr.1
        exact hInv r hmem
      | true =>
        intro r hr
        dsimp only at hr ⊢
        rw [if_pos rfl] at hr ⊢
        simp only [deleteRow, List.mem_filter, decide_not] at hr
        have hne : r.id ≠ id := by simpa using hr.2
        rw [lookupObj_removeObj_ne _ _ _ hne]
        exact hInv r hr.1
  · -- promotion
    intro env hashFn stagingDir shouldCopy deleteFails id
    unfold FileService.create_file_from_staging_file_id
    cases hfr : findRow st.stagingRows id with
    | none =>
      rw [remove_eq_of_findRow_none st id hfr]
      exact hInv
    | some sf =>
      rw [remove_eq_of_findRow st id sf hfr]
      dsimp only
      cases hbytes : lookupObj st.stagingObjs id with
      | none => exact hInv
      | some bytes =>
        dsimp only
        obtain ⟨so, hco, hpres⟩ := commit_staging_eq shouldCopy deleteFails
          st.stagingObjs st.residentObjs id bytes hbytes
        rw [hco]
        dsimp only
        intro r hr
        simp only [deleteRow, List.mem_filter, decide_not] at hr
        have hne : r.id ≠ id := by simpa using hr.2
        rw [hpres r.id hne]
        exact hInv r hr.1


theorem sweep_unfolded (st : SystemState) (now duration : Int)
    (limit : Nat) :
    StagingFileService.remove_expired_staging_files st now duration limit =
      ({ st with
          stagingRows := st.stagingRows.filter (fun r =>
            !(((((st.stagingRows.filter
                    (fun r => r.stagedAt < now - duration)).insertionSort
                  StagingFileService.rowOldestFirst).take limit).map
                (fun r => r.id)).contains r.id)) },
        ((st.stagingRows.filter (fun r =>
            ((((st.stagingRows.filter
                  (fun r => r.stagedAt < now - duration)).insertionSort
                StagingFileService.rowOldestFirst).take limit).map
              (fun r => r.id)).contains r.id)).map (fun r => r.id)).length,
        (st.stagingRows.filter (fun r =>
            ((((st.stagingRows.filter
                  (fun r => r.stagedAt < now - duration)).insertionSort
                StagingFileService.rowOldestFirst).take limit).map
              (fun r => r.id)).contains r.id)).map (fun r => r.id)) := rfl

theorem sweep_core (rows : List StagingFile) (p : StagingFile → Bool)
    (limit : Nat) (hnd : (rows.map (fun r => r.id)).Nodup) :
    (((rows.filter (fun r =>
        (((((rows.filter p).insertionSort
            StagingFileService.rowOldestFirst).take limit).map
          (fun r => r.id)).contains r.id))).map (fun r => r.id)).length =
      min limit (rows.filter p).length) ∧
    (∀ r, r ∈ rows →
      r ∉ rows.filter (fun r =>
        !((((((rows.filter p).insertionSort
            StagingFileService.rowOldestFirst).take limit).map
          (fun r => r.id)).contains r.id))) →
      p r = true) ∧
    (∀ r s, r ∈ rows → s ∈ rows →
      r ∉ rows.filter (fun r =>
        !((((((rows.filter p).insertionSort
            StagingFileService.rowOldestFirst).take limit).map
          (fun r => r.id)).contains r.id))) →
      s ∈ rows.filter (fun r =>
        !((((((rows.filter p).insertionSort
            StagingFileService.rowOldestFirst).take limit).map
          (fun r => r.id)).contains r.id))) →
      p s = true →
      StagingFileService.rowOldestFirst r s) ∧
    (∀ i, i ∈ (rows.filter (fun r =>
        (((((rows.filter p).insertionSort
            StagingFileService.rowOldestFirst).take limit).map
          (fun r => r.id)).contains r.id))).map (fun r => r.id) ↔
      ∃ r, r ∈ rows ∧ r.id = i ∧
        r ∉ rows.filter (fun r =>
          !((((((rows.filter p).insertionSort
              StagingFileService.rowOldestFirst).take limit).map
            (fun r => r.id)).contains r.id)))) := by
  set S := (rows.filter p).insertionSort StagingFileService.rowOldestFirst
    with hS
  set sel := ((S.take limit).map (fun r => r.id)) with hsel
  have hperm : List.Perm S (rows.filter p) :=
    List.perm_insertionSort StagingFileService.rowOldestFirst _
  have hsorted : List.Sorted StagingFileService.rowOldestFirst S :=
    List.sorted_insertionSort StagingFileService.rowOldestFirst _
  have hinj : ∀ x ∈ rows, ∀ y ∈ rows, x.id = y.id → x = y :=
    List.inj_on_of_nodup_map hnd
  have hndF : ((rows.filter p).map (fun r => r.id)).Nodup := by
    have hsub : List.Sublist ((rows.filter p).map (fun r => r.id))
        (rows.map (fun r => r.id)) := (List.filter_sublist rows).map _
    exact List.Nodup.sublist hsub hnd
  have hndS : (S.map (fun r => r.id)).Nodup :=
    ((hperm.map (fun r => r.id)).nodup_iff).mpr hndF
  have hndsel : sel.Nodup := by
    have hsub : List.Sublist ((S.take limit).map (fun r => r.id))
        (S.map (fun r => r.id)) := (List.take_sublist _ _).map _
    exact List.Nodup.sublist hsub hndS
  have hTmem : ∀ t ∈ S.take limit, t ∈ rows ∧ p t = true := by
    intro t ht
    have h1 : t ∈ S := (List.take_sublist _ _).subset ht
    have h2 : t ∈ rows.filter p := hperm.subset h1
    simpa using List.mem_filter.mp h2
  have hc : ∀ (l : List Nat) (a : Nat), l.contains a = true ↔ a ∈ l := by
    intro l a
    simp
  have hsel_elim : ∀ i ∈ sel, ∃ t, t ∈ S.take limit ∧ t.id = i := by
    intro i hi
    rw [hsel] at hi
    obtain ⟨t, ht, hti⟩ := List.mem_map.mp hi
    exact ⟨t, ht, hti⟩
  set K := rows.filter (fun r => !(sel.contains r.id)) with hK
  set D := rows.filter (fun r => sel.contains r.id) with hD0
  have hcontains_of_not_kept : ∀ r ∈ rows, r ∉ K → r.id ∈ sel := by
    intro r hr hnk
    by_contra hni
    apply hnk
    rw [hK]
    refine List.mem_filter.mpr ⟨hr, ?_⟩
    simp only [Bool.not_eq_true']
    rw [show (sel.contains r.id = false) = ¬(sel.contains r.id = true) from
      by simp]
    rw [hc]
    exact hni
  have hr_of_sel : ∀ r ∈ rows, r.id ∈ sel →
      r ∈ S.take limit ∧ p r = true := by
    intro r hr hri
    obtain ⟨t, htT, hti⟩ := hsel_elim _ hri
    obtain ⟨htrows, htp⟩ := hTmem t htT
    have heq : t = r := hinj t htrows r hr hti
    subst heq
    exact ⟨htT, htp⟩
  have hmemD : ∀ i, i ∈ D.map (fun r => r.id) ↔ i ∈ sel := by
    intro i
    constructor
    · intro hi
      obtain ⟨r, hrD, hri⟩ := List.mem_map.mp hi
      rw [hD0] at hrD
      obtain ⟨hr, hcont⟩ := List.mem_filter.mp hrD
      rw [← hri]
      exact (hc _ _).mp hcont
    · intro hi
      obtain ⟨t, htT, hti⟩ := hsel_elim i hi
      obtain ⟨htrows, htp⟩ := hTmem t htT
      refine List.mem_map.mpr ⟨t, ?_, hti⟩
      rw [hD0]
      refine List.mem_filter.mpr ⟨htrows, ?_⟩
      rw [hti]
      exact (hc _ _).mpr hi
  have hndD : (D.map (fun r => r.id)).Nodup := by
    have hsub : List.Sublist (D.map (fun r => r.id))
        (rows.map (fun r => r.id)) := by
      rw [hD0]
      exact (List.filter_sublist rows).map _
    exact List.Nodup.sublist hsub hnd
  have hpermD : List.Perm (D.map (fun r => r.id)) sel :=
    (List.perm_ext_iff_of_nodup hndD hndsel).mpr hmemD
  have hcount : (D.map (fun r => r.id)).length =
      min limit (rows.filter p).length := by
    rw [hpermD.length_eq, hsel, List.length_map, List.length_take,
      hperm.length_eq]
  have hnotkept_iff : ∀ r ∈ rows, (r ∉ K ↔ r.id ∈ sel) := by
    intro r hr
    constructor
    · exact hcontains_of_not_kept r hr
    · intro hri hrK
      rw [hK] at hrK
      obtain ⟨_, hbool⟩ := List.mem_filter.mp hrK
      simp only [Bool.not_eq_true'] at hbool
      rw [show (sel.contains r.id = false) = ¬(sel.contains r.id = true)
        from by simp] at hbool
      rw [hc] at hbool
      exact hbool hri
  refine ⟨hcount, ?_, ?_, ?_⟩
  · intro r hr hnk
    exact (hr_of_sel r hr (hcontains_of_not_kept r hr hnk)).2
  · intro r s hr hs hrnk hsk hps
    have hrT : r ∈ S.take limit :=
      (hr_of_sel r hr (hcontains_of_not_kept r hr hrnk)).1
    have hsF : s ∈ rows.filter p := List.mem_filter.mpr ⟨hs, hps⟩
    have hsS : s ∈ S := hperm.mem_iff.mpr hsF
    have hsnotsel : s.id ∉ sel := fun hmem =>
      ((hnotkept_iff s hs).mpr hmem) hsk
    have hsdrop : s ∈ S.drop limit := by
      have hsplit : s ∈ S.take limit ++ S.drop limit := by
        rw [List.take_append_drop]
        exact hsS
      rcases List.mem_append.mp hsplit with h | h
      · exact absurd (List.mem_map.mpr ⟨s, h, rfl⟩) (by rw [← hsel] at *; exact hsnotsel)
      · exact h
    have hpair : List.Pairwise StagingFileService.rowOldestFirst
        (S.take limit ++ S.drop limit) := by
      rw [List.take_append_drop]
      exact hsorted
    exact (List.pairwise_append.mp hpair).2.2 r hrT s hsdrop
  · intro i
    rw [hmemD i]
    constructor
    · intro hi
      obtain ⟨t, htT, hti⟩ := hsel_elim i hi
      refine ⟨t, (hTmem t htT).1, hti, ?_⟩
      refine (hnotkept_iff t (hTmem t htT).1).mpr ?_
      rw [hti]
      exact hi
    · rintro ⟨r, hr, hri, hrnk⟩
      rw [← hri]
      exact hcontains_of_not_kept r hr hrnk

/-- C7: the expiry sweep deletes exactly rows with
`staged_at < now - duration`, oldest first (by `staged_at`, then id), up
to `limit` rows — the returned count is `min limit (number expired)`,
every deleted row is expired, every deleted row is oldest-first-before
every kept expired row — the sweep itself touches no byte objects, and
the ids queued for detached background byte removal are exactly the ids
of the deleted rows. -/
theorem claim_C7_expiry_sweep (st : SystemState) (now duration : Int)
    (limit : Nat)
    (hnd : (st.stagingRows.map (fun r => r.id)).Nodup) :
    ((StagingFileService.remove_expired_staging_files st now duration
        limit).2.1 =
      min limit
        (st.stagingRows.filter
          (fun r => r.stagedAt < now - duration)).length) ∧
    (∀ r, r ∈ st.stagingRows →
      r ∉ (StagingFileService.remove_expired_staging_files st now duration
          limit).1.stagingRows →
      r.stagedAt < now - duration) ∧
    (∀ r, r ∈ (StagingFileService.remove_expired_staging_files st now
        duration limit).1.stagingRows → r ∈ st.stagingRows) ∧
    (∀ r s, r ∈ st.stagingRows → s ∈ st.stagingRows →
      r ∉ (StagingFileService.remove_expired_staging_files st now duration
          limit).1.stagingRows →
      s ∈ (StagingFileService.remove_expired_staging_files st now duration
          limit).1.stagingRows →
      s.stagedAt < now - duration →
      StagingFileService.rowOldestFirst r s) ∧
    ((StagingFileService.remove_expired_staging_files st now duration
        limit).1.stagingObjs = st.stagingObjs ∧
      (StagingFileService.remove_expired_staging_files st now duration
        limit).1.residentObjs = st.residentObjs ∧
      (StagingFileService.remove_expired_staging_files st now duration
        limit).1.files = st.files) ∧
    ((StagingFileService.remove_expired_staging_files st now duration
        limit).2.2.length =
      (StagingFileService.remove_expired_staging_files st now duration
        limit).2.1 ∧
      ∀ i, i ∈ (StagingFileService.remove_expired_staging_files st now
          duration limit).2.2 ↔
        ∃ r, r ∈ st.stagingRows ∧ r.id = i ∧
          r ∉ (StagingFileService.remove_expired_staging_files st now
              duration limit).1.stagingRows) := by
  obtain ⟨hcount, hB, hD, hA⟩ := sweep_core st.stagingRows
    (fun r => decide (r.stagedAt < now - duration)) limit hnd
  rw [sweep_unfolded]
  dsimp only
  refine ⟨hcount, ?_, ?_, ?_, ⟨rfl, rfl, rfl⟩, rfl, ?_⟩
  · intro r hr hnk
    exact of_decide_eq_true (hB r hr hnk)
  · intro r hr
    exact (List.mem_filter.mp hr).1
  · intro r s hr hs hrnk hsk hps
    exact hD r s hr hs hrnk hsk (decide_eq_true hps)
  · exact hA

theorem claim_C7_expiry_sweep_witness :
    ((StagingFileService.remove_expired_staging_files
        { stagingRows :=
            [{ id := 1, name := "a", mime := none, size := 0,
               stagedAt := -180 },
             { id := 2, name := "b", mime := none, size := 0,
               stagedAt := -120 },
             { id := 3, name := "c", mime := none, size := 0,
               stagedAt := -60 }],
          files := [], stagingObjs := [], residentObjs := [] }
        0 90 1).2.1 =
      min 1
        (({ stagingRows :=
              [{ id := 1, name := "a", mime := none, size := 0,
                 stagedAt := -180 },
               { id := 2, name := "b", mime := none, size := 0,
                 stagedAt := -120 },
               { id := 3, name := "c", mime := none, size := 0,
                 stagedAt := -60 }],
            files := [], stagingObjs := [],
            residentObjs := [] } : SystemState).stagingRows.filter
          (fun r => r.stagedAt < 0 - 90)).length) ∧
    ((StagingFileService.remove_expired_staging_files
        { stagingRows :=
            [{ id := 1, name := "a", mime := none, size := 0,
               stagedAt := -180 },
             { id := 2, name := "b", mime := none, size := 0,
               stagedAt := -120 },
             { id := 3, name := "c", mime := none, size := 0,
               stagedAt := -60 }],
          files := [], stagingObjs := [], residentObjs := [] }
        0 90 1).2.1 = 1) ∧
    ((StagingFileService.remove_expired_staging_files
        { stagingRows :=
            [{ id := 1, name := "a", mime := none, size := 0,
               stagedAt := -180 },
             { id := 2, name := "b", mime := none, size := 0,
               stagedAt := -120 },
             { id := 3, name := "c", mime := none, size := 0,
               stagedAt := -60 }],
          files := [], stagingObjs := [], residentObjs := [] }
        0 90 1).1.stagingRows.map (fun r => r.id) = [2, 3]) ∧
    ((StagingFileService.remove_expired_staging_files
        { stagingRows :=
            [{ id := 1, name := "a", mime := none, size := 0,
               stagedAt := -180 },
             { id := 2, name := "b", mime := none, size := 0,
               stagedAt := -120 },
             { id := 3, name := "c", mime := none, size := 0,
               stagedAt := -60 }],
          files := [], stagingObjs := [], residentObjs := [] }
        0 90 1).2.2 = [1]) := by
  refine ⟨(claim_C7_expiry_sweep _ 0 90 1 (by decide)).1, by decide,
    by decide, by decide⟩

theorem claim_C1_promotion_success_witness :
    ∃ f : File,
      (FileService.create_file_from_staging_file_id
          ⟨fun _ => none, fun _ => none⟩ ⟨fun b => (b.length : Int)⟩ "st"
          false false
          { stagingRows :=
              [{ id := 1, name := "a", mime := none, size := 2,
                 stagedAt := 0 }],
            files := [], stagingObjs := [(1, [5, 6])],
            residentObjs := [] } 1).2 = .ok (some f) ∧
      f.id = 1 ∧
      f.size = ((([5, 6] : List Nat)).length : Int) ∧
      f.hash = (HashFn.mk (fun b => (b.length : Int))).hash [5, 6] ∧
      (∀ m,
        ({ id := 1, name := "a", mime := none, size := 2, stagedAt := 0 } :
            StagingFile).mime = some m → f.mime = m) ∧
      (({ id := 1, name := "a", mime := none, size := 2, stagedAt := 0 } :
            StagingFile).mime = none →
        ∀ m, (MimeEnv.mk (fun _ => none) (fun _ => none)).infer [5, 6] =
            some m → f.mime = m) ∧
      (({ id := 1, name := "a", mime := none, size := 2, stagedAt := 0 } :
            StagingFile).mime = none →
        (MimeEnv.mk (fun _ => none) (fun _ => none)).infer [5, 6] = none →
        ∀ m, (MimeEnv.mk (fun _ => none) (fun _ => none)).guessFromPath
            (generate_staging_file_path "st" 1) = some m → f.mime = m) ∧
      (({ id := 1, name := "a", mime := none, size := 2, stagedAt := 0 } :
            StagingFile).mime = none →
        (MimeEnv.mk (fun _ => none) (fun _ => none)).infer [5, 6] = none →
        (MimeEnv.mk (fun _ => none) (fun _ => none)).guessFromPath
            (generate_staging_file_path "st" 1) = none →
        f.mime = "application/octet-stream") ∧
      findRow (FileService.create_file_from_staging_file_id
          ⟨fun _ => none, fun _ => none⟩ ⟨fun b => (b.length : Int)⟩ "st"
          false false
          { stagingRows :=
              [{ id := 1, name := "a", mime := none, size := 2,
                 stagedAt := 0 }],
            files := [], stagingObjs := [(1, [5, 6])],
            residentObjs := [] } 1).1.stagingRows 1 = none ∧
      lookupObj (FileService.create_file_from_staging_file_id
          ⟨fun _ => none, fun _ => none⟩ ⟨fun b => (b.length : Int)⟩ "st"
          false false
          { stagingRows :=
              [{ id := 1, name := "a", mime := none, size := 2,
                 stagedAt := 0 }],
            files := [], stagingObjs := [(1, [5, 6])],
            residentObjs := [] } 1).1.residentObjs 1 = some [5, 6] :=
  claim_C1_promotion_success ⟨fun _ => none, fun _ => none⟩
    ⟨fun b => (b.length : Int)⟩ "st" false false
    { stagingRows :=
        [{ id := 1, name := "a", mime := none, size := 2, stagedAt := 0 }],
      files := [], stagingObjs := [(1, [5, 6])], residentObjs := [] } 1
    { id := 1, name := "a", mime := none, size := 2, stagedAt := 0 }
    [5, 6] (by decide) (by decide)

/-- C3 (counterexample to the claim as stated): a fill whose driver copy
fails after 2 of 3 bytes commits its transaction with the row's size still
0 while the staging object holds 2 bytes; and a fill whose copy succeeds
but whose post-write re-stat fails returns Ok yet commits the stale
pre-write size 0 while the object holds 1 byte — so the size invariant is
broken after a completed fill operation in both cases. -/
theorem claim_C3_size_invariant_counterexample :
    sizeInvariant
      { stagingRows :=
          [{ id := 1, name := "a", mime := none, size := 0, stagedAt := 0 }],
        files := [], stagingObjs := [], residentObjs := [] } ∧
    (StagingFileService.fill_staging_file_by_id
        { stagingRows :=
            [{ id := 1, name := "a", mime := none, size := 0,
               stagedAt := 0 }],
          files := [], stagingObjs := [], residentObjs := [] }
        1 (some 0) [9, 8, 7] (some 2) false).2 = .error (.write 2) ∧
    ¬ sizeInvariant
      (StagingFileService.fill_staging_file_by_id
        { stagingRows :=
            [{ id := 1, name := "a", mime := none, size := 0,
               stagedAt := 0 }],
          files := [], stagingObjs := [], residentObjs := [] }
        1 (some 0) [9, 8, 7] (some 2) false).1 ∧
    (StagingFileService.fill_staging_file_by_id
        { stagingRows :=
            [{ id := 1, name := "a", mime := none, size := 0,
               stagedAt := 0 }],
          files := [], stagingObjs := [], residentObjs := [] }
        1 (some 0) [9] none true).2 =
      .ok
        (some
          { id := 1, name := "a", mime := none, size := 0, stagedAt := 0 }) ∧
    ¬ sizeInvariant
      (StagingFileService.fill_staging_file_by_id
        { stagingRows :=
            [{ id := 1, name := "a", mime := none, size := 0,
               stagedAt := 0 }],
          files := [], stagingObjs := [], residentObjs := [] }
        1 (some 0) [9] none true).1 := by
  decide

theorem claim_C3_amended_size_invariant_witness :
    sizeInvariant
      (StagingFileService.create_staging_file
        { stagingRows :=
            [{ id := 1, name := "a", mime := none, size := 0,
               stagedAt := 0 }],
          files := [], stagingObjs := [], residentObjs := [] }
        2 "b" none 7).1 :=
  (claim_C3_amended_size_invariant _ (by decide)).1 2 "b" none 7 (by decide)

end PolyTag
